import Mathlib

/-!
Verification of the ledger normalization, derivation and reconciliation
engine of `data_processing.py`.

The Python source is shallowly embedded: DataFrame columns become
association lists from column names to cell values, elementwise pandas
arithmetic becomes per-record arithmetic over `ℚ`, `np.round(_, 2)`
becomes round-half-to-even on hundredths, Python dictionaries become
association lists, strings become `List Char` pipelines, and code that
can raise becomes `Except`-valued code.  All definitions are executable.
-/

set_option maxHeartbeats 1000000

namespace DataProcessing

/-! ## Rounding

`Series.round(2)` / `np.round(_, 2)` round half to even on the second
decimal digit.  We model the value space by `ℚ`. -/

/-- Round a rational to the nearest integer, ties to even
(the IEEE/numpy rounding mode used by `.round`). -/
def halfEven (q : ℚ) : ℤ :=
  if q - ⌊q⌋ < 1/2 then ⌊q⌋
  else if (1:ℚ)/2 < q - ⌊q⌋ then ⌊q⌋ + 1
  else if ⌊q⌋ % 2 = 0 then ⌊q⌋ else ⌊q⌋ + 1

/-- `x.round(2)` of pandas: round half to even at two decimal places. -/
def roundTo2 (q : ℚ) : ℚ := (halfEven (q * 100) : ℚ) / 100

/-! ## Records

One row of a monthly sheet, with the columns used by
`processar_novos_dados` and `salvar_no_excel`.  The `data` column of an
incoming row may hold a parsable date, an unparsable value (on which
`pd.to_datetime` raises) or a missing value (`NaN`, which
`pd.to_datetime` turns into `NaT`). -/

structure Date where
  year : Nat
  month : Nat
  day : Nat
  deriving DecidableEq, Repr

inductive DateInput where
  | valid (d : Date)
  | invalid
  | missing
  deriving DecidableEq, Repr

structure Record where
  data : DateInput
  beneficiario : String
  valor_transacionado : ℚ
  valor_liberado : ℚ
  taxa_de_juros : ℚ
  comissao_agente : ℚ
  extra_agente : ℚ
  valor_dualcred : ℚ
  nota_fiscal : ℚ
  ptrans : ℚ
  pliberad : ℚ
  deriving DecidableEq, Repr

/-! ## Derivation calculator: `processar_novos_dados`

The source computes, columnwise:
`valor_dualcred = (T - R - I - C - E).round(2)`,
`%trans = np.where(T > 0, dualcred/T*100, 0).round(2)`,
`%liberad = np.where(R > 0, dualcred/R*100, 0).round(2)`,
`nota_fiscal = (T * 0.032).round(2)`.
All operations are elementwise, so the columnwise program is embedded
per record. -/

def deriveRecord (r : Record) : Record :=
  let dual :=
    roundTo2 (r.valor_transacionado - r.valor_liberado - r.taxa_de_juros
      - r.comissao_agente - r.extra_agente)
  { r with
    valor_dualcred := dual
    ptrans :=
      roundTo2 (if 0 < r.valor_transacionado
        then dual / r.valor_transacionado * 100 else 0)
    pliberad :=
      roundTo2 (if 0 < r.valor_liberado
        then dual / r.valor_liberado * 100 else 0)
    nota_fiscal := roundTo2 (r.valor_transacionado * (32/1000)) }

def processarNovosDados (l : List Record) : List Record := l.map deriveRecord

/-- Scenario A input: T=1000, R=800, I=20, C=30, E=10 (stored derived
fields arbitrary; they are overwritten). -/
def recA : Record :=
  { data := DateInput.valid ⟨2024, 1, 15⟩
    beneficiario := "B"
    valor_transacionado := 1000
    valor_liberado := 800
    taxa_de_juros := 20
    comissao_agente := 30
    extra_agente := 10
    valor_dualcred := 0
    nota_fiscal := 0
    ptrans := 0
    pliberad := 0 }

/-- Scenario B input: every raw numeric field 0. -/
def recB : Record :=
  { data := DateInput.valid ⟨2024, 2, 1⟩
    beneficiario := ""
    valor_transacionado := 0
    valor_liberado := 0
    taxa_de_juros := 0
    comissao_agente := 0
    extra_agente := 0
    valor_dualcred := 0
    nota_fiscal := 0
    ptrans := 0
    pliberad := 0 }

/-- A record with transacted value 0 but released value 100: only the
transacted percentage has a nonpositive denominator. -/
def recMixed : Record :=
  { data := DateInput.valid ⟨2024, 5, 2⟩
    beneficiario := "M"
    valor_transacionado := 0
    valor_liberado := 100
    taxa_de_juros := 0
    comissao_agente := 0
    extra_agente := 0
    valor_dualcred := 0
    nota_fiscal := 0
    ptrans := 0
    pliberad := 0 }

/-! ## Schema normalizer: `sanitize_column_name`

The source is
`str(col).strip().lower().replace(" ", "_").replace("ç", "c")`
`.replace("ã", "a").replace("õ", "o").replace("ó", "o").replace("ô", "o")`
`.replace("à", "a").replace("é", "e").replace("ê", "e").replace("ú", "u")`
`.replace("%", "porcento").replace("(", "").replace(")", "")`.
Strings are embedded as `List Char`; `.strip()` becomes dropping leading
and trailing whitespace, `.lower()` a characterwise map covering the
ASCII letters and the uppercase accented letters of the alphabet in
play, and each `.replace` a map / filter / expansion over the list. -/

/-- The characters removed by Python `str.strip()`: everything
`str.isspace()` accepts — the ASCII whitespace and separators
U+1C..U+1F, plus NEL (U+85), NBSP (U+A0) and the Unicode space
separators (Zs/Zl/Zp). -/
def pySpaceChars : List Char :=
  ['\t', '\n', '\x0b', '\x0c', '\r', '\x1c', '\x1d', '\x1e', '\x1f', ' ',
   '\x85', '\xa0', '\u1680', '\u2000', '\u2001', '\u2002', '\u2003',
   '\u2004', '\u2005', '\u2006', '\u2007', '\u2008', '\u2009', '\u200a',
   '\u2028', '\u2029', '\u202f', '\u205f', '\u3000']

def isPySpace (c : Char) : Bool := pySpaceChars.contains c

/-- Uppercase/lowercase pairs acted on by `str.lower()`: the ASCII
letters plus the uppercase accented letters appearing in the ledger
header alphabet. -/
def lowerPairs : List (Char × Char) :=
  [('A','a'), ('B','b'), ('C','c'), ('D','d'), ('E','e'), ('F','f'),
   ('G','g'), ('H','h'), ('I','i'), ('J','j'), ('K','k'), ('L','l'),
   ('M','m'), ('N','n'), ('O','o'), ('P','p'), ('Q','q'), ('R','r'),
   ('S','s'), ('T','t'), ('U','u'), ('V','v'), ('W','w'), ('X','x'),
   ('Y','y'), ('Z','z'),
   ('Ç','ç'), ('Ã','ã'), ('Õ','õ'), ('Ó','ó'), ('Ô','ô'), ('À','à'),
   ('É','é'), ('Ê','ê'), ('Ú','ú'), ('Í','í'), ('Á','á')]

def charLower (c : Char) : Char :=
  match lowerPairs.find? (fun p => p.1 == c) with
  | some p => p.2
  | none => c

/-- Python `str.strip()`: drop leading and trailing whitespace. -/
def pyStrip (s : List Char) : List Char :=
  ((s.dropWhile isPySpace).reverse.dropWhile isPySpace).reverse

/-- Python `str.lower()` (characterwise fragment). -/
def pyLower (s : List Char) : List Char := s.map charLower

/-- Python `str.replace(a, b)` for single characters. -/
def replaceChar (a b : Char) (s : List Char) : List Char :=
  s.map fun c => if c = a then b else c

def porcentoChars : List Char := "porcento".data

/-- Python `str.replace("%", "porcento")`. -/
def expandPct : List Char → List Char
  | [] => []
  | c :: cs => (if c = '%' then porcentoChars else [c]) ++ expandPct cs

/-- Python `str.replace(a, "")` for a single character. -/
def removeChar (a : Char) (s : List Char) : List Char :=
  s.filter fun c => !(c == a)

def sanitizeList (s : List Char) : List Char :=
  removeChar ')' <| removeChar '(' <| expandPct <|
  replaceChar 'ú' 'u' <| replaceChar 'ê' 'e' <| replaceChar 'é' 'e' <|
  replaceChar 'à' 'a' <| replaceChar 'ô' 'o' <| replaceChar 'ó' 'o' <|
  replaceChar 'õ' 'o' <| replaceChar 'ã' 'a' <| replaceChar 'ç' 'c' <|
  replaceChar ' ' '_' <| pyLower <| pyStrip s

def sanitize_column_name (s : String) : String := ⟨sanitizeList s.data⟩

/-- The characters that `sanitize_column_name` substitutes away after
lowering: the space, the nine replaced accented letters, the percent
sign and the two parentheses. -/
def specialChars : List Char :=
  [' ', 'ç', 'ã', 'õ', 'ó', 'ô', 'à', 'é', 'ê', 'ú', '%', '(', ')']

/-- The synonym rename map of `load_and_process_data`
(`column_mapping`). -/
def column_mapping : List (String × String) :=
  [("beneficiário", "beneficiario"), ("comissão_agente", "comissao_agente"),
   ("chave_pix_cpf", "chave_pix"), ("%_trans", "%trans"),
   ("%_liberad", "%liberad"), ("máquina", "maquina")]

/-! ## Partition loader: `load_and_process_data`

A sheet (DataFrame) is an association list from column names to column
contents plus a row count; a cell is a number, a string, or `NaT`.
`load_and_process_data` reads the workbook as a mapping from sheet names
to frames (`{}` when the file is absent), sanitizes and renames the
headers of each frame, and injects the missing required columns — nothing
else: no concatenation of partitions and no recomputation (its docstring
says "sem reprocessar cálculos históricos"). -/

inductive CellVal where
  | num (q : ℚ)
  | str (s : String)
  | NaT
  deriving DecidableEq, Repr

structure DF where
  cols : List (String × List CellVal)
  nrows : Nat
  deriving DecidableEq, Repr

def required_columns : List String :=
  ["data", "beneficiario", "valor_transacionado", "valor_liberado",
   "taxa_de_juros", "comissao_agente", "extra_agente", "valor_dualcred",
   "nota_fiscal", "porcentagem_agente", "quantidade_parcelas", "agente",
   "%trans", "%liberad"]

/-- The default injected for an absent required column:
`pd.NaT if col == "data" else 0.0`. -/
def defaultFor (c : String) : CellVal :=
  if c = "data" then CellVal.NaT else CellVal.num 0

/-- `df.rename(columns=column_mapping)` on one header. -/
def renameCol (n : String) : String :=
  match column_mapping.find? (fun p => decide (p.1 = n)) with
  | some p => p.2
  | none => n

/-- `df.columns = [sanitize_column_name(col) for col in df.columns]`. -/
def sanitizeCols (d : DF) : DF :=
  ⟨d.cols.map (fun p => (sanitize_column_name p.1, p.2)), d.nrows⟩

/-- `df.rename(columns=column_mapping, inplace=True, errors="ignore")`. -/
def renameCols (d : DF) : DF :=
  ⟨d.cols.map (fun p => (renameCol p.1, p.2)), d.nrows⟩

def hasCol (d : DF) (c : String) : Bool := d.cols.any fun p => decide (p.1 = c)

/-- One iteration of
`for col in required_columns: if col not in df.columns: df[col] = ...`. -/
def addStep (d : DF) (c : String) : DF :=
  if hasCol d c then d
  else ⟨d.cols ++ [(c, List.replicate d.nrows (defaultFor c))], d.nrows⟩

def addMissing (d : DF) : DF := required_columns.foldl addStep d

def loadSheet (d : DF) : DF := addMissing (renameCols (sanitizeCols d))

/-- `load_and_process_data`: `none` models a missing workbook file
(`FileNotFoundError` caught, `sheets = {}`). -/
def loadAndProcessData : Option (List (String × DF)) → List (String × DF)
  | none => []
  | some sheets => sheets.map fun p => (p.1, loadSheet p.2)

/-- `df[c]` as an optional column read (first occurrence). -/
def getCol (d : DF) (c : String) : Option (List CellVal) :=
  (d.cols.find? (fun p => decide (p.1 = c))).map Prod.snd

/-! ## Persistence writer: `salvar_no_excel`

Python values flowing through the dict of the writer are either ints or
strings.  The dict `month_names` maps int keys to label strings.  The
writer loop unpacks each dict item as `(sheet_name, month_num)` — the
names are swapped, so `month_num` is bound to the label string — and
then evaluates `month_names[month_num]`, subscripting the int-keyed dict
with a string: a `KeyError`, modelled as an `Except` failure.  The
exception is swallowed by the outer `except`, which returns
`False`. -/

inductive PyVal where
  | int (n : Nat)
  | str (s : String)
  deriving DecidableEq, Repr

def month_names : List (PyVal × PyVal) :=
  [(.int 1, .str "JAN"), (.int 2, .str "FEV"), (.int 3, .str "MAR"),
   (.int 4, .str "ABR"), (.int 5, .str "MAI"), (.int 6, .str "JUN"),
   (.int 7, .str "JUL"), (.int 8, .str "AGO"), (.int 9, .str "SET"),
   (.int 10, .str "OUT"), (.int 11, .str "NOV"), (.int 12, .str "DEZ")]

/-- Python dict subscription `d[k]`: `KeyError` when the key is absent. -/
def dictGet (d : List (PyVal × PyVal)) (k : PyVal) : Except Unit PyVal :=
  match d.find? (fun p => decide (p.1 = k)) with
  | some p => Except.ok p.2
  | none => Except.error ()

/-- `pd.to_datetime` on one cell: parsable dates pass through, `NaN`
becomes `NaT`, anything unparsable raises. -/
def toDatetime (d : DateInput) : Except Unit DateInput :=
  match d with
  | .valid dd => Except.ok (.valid dd)
  | .missing => Except.ok .missing
  | .invalid => Except.error ()

/-- `novos_dados["data"].dt.month.map(month_names)` for one record: the
partition label, `NaN` (`none`) for `NaT` dates or out-of-range months. -/
def monthLabelOf (r : Record) : Option PyVal :=
  match r.data with
  | .valid d => (month_names.find? (fun p => decide (p.1 = .int d.month))).map Prod.snd
  | _ => none

/-- The dedup key of `drop_duplicates(subset=[...])`:
`(data, beneficiario, valor_transacionado)`. -/
def keyOf (r : Record) : DateInput × String × ℚ :=
  (r.data, r.beneficiario, r.valor_transacionado)

/-- `drop_duplicates(subset=["data", "beneficiario", "valor_transacionado"])`:
keep the first occurrence of each key. -/
def dropDuplicates : List Record → List Record
  | [] => []
  | r :: rs => r :: dropDuplicates (rs.filter fun x => decide (keyOf x ≠ keyOf r))
termination_by l => l.length
decreasing_by
  simp only [List.length_cons]
  exact Nat.lt_succ_of_le (List.length_filter_le _ _)

/-- Sort key of `sort_values(by="data")`. -/
def dateKey (r : Record) : Nat :=
  match r.data with
  | .valid d => d.year * 10000 + d.month * 100 + d.day
  | _ => 0

def insertByDate (r : Record) : List Record → List Record
  | [] => [r]
  | x :: xs =>
    if dateKey r ≤ dateKey x then r :: x :: xs else x :: insertByDate r xs

/-- `combined_df.sort_values(by="data")`, modelled as insertion sort on
the date key (no claim depends on which sorting permutation is used). -/
def sortByData (l : List Record) : List Record := l.foldr insertByDate []

/-- `to_excel(..., if_sheet_exists="overlay")`: the rows of the frame
overwrite the leading rows of the sheet; old rows beyond the length of
the frame survive in the sheet. -/
def overlayRows (old new : List Record) : List Record :=
  new ++ old.drop new.length

/-- One iteration of the writer loop
`for sheet_name, month_num in month_names.items()`.  `item.1` is the
int key bound to `sheet_name` and `item.2` the label string bound to
`month_num`; the loop body first reassigns
`sheet_name = month_names[month_num]` (the `KeyError`), then filters the
batch for that sheet, concatenates with the existing sheet,
deduplicates, sorts and overlay-writes. -/
def writerStep (existing : String → List Record) (novos : List Record)
    (sheets : String → List Record) (item : PyVal × PyVal) :
    Except Unit (String → List Record) := do
  let sheetName ← dictGet month_names item.2
  match sheetName with
  | .str lbl =>
    let aba := novos.filter fun r => decide (monthLabelOf r = some (.str lbl))
    if aba.isEmpty then pure sheets
    else
      pure fun s =>
        if s = lbl then
          overlayRows (existing s) (sortByData (dropDuplicates (existing s ++ aba)))
        else sheets s
  | .int _ => pure sheets

/-- `salvar_no_excel`: derive the incoming batch, return `False` if it
is empty, parse the dates (`pd.to_datetime` raises on an unparsable
date, caught by the outer `except` → `False`), then run the writer loop
over the twelve dict items; any exception inside is caught and the
function returns `False` with the stored sheets unchanged. -/
def salvarNoExcel (existing : String → List Record) (novosDados : List Record) :
    Bool × (String → List Record) :=
  let novos := processarNovosDados novosDados
  if novos.isEmpty then (false, existing)
  else if novos.any (fun r =>
      match toDatetime r.data with
      | .error _ => true
      | .ok _ => false) then (false, existing)
  else
    match month_names.foldlM (writerStep existing novos) existing with
    | .ok sheets => (true, sheets)
    | .error _ => (false, existing)

/-- The empty store: every sheet empty. -/
def emptyStore : String → List Record := fun _ => []

/-- Scenario C/D-style incoming record: 2024-03-05, "Beneficiary X",
T=500. -/
def recMar : Record :=
  { data := DateInput.valid ⟨2024, 3, 5⟩
    beneficiario := "Beneficiary X"
    valor_transacionado := 500
    valor_liberado := 0
    taxa_de_juros := 0
    comissao_agente := 0
    extra_agente := 0
    valor_dualcred := 0
    nota_fiscal := 0
    ptrans := 0
    pliberad := 0 }

/-- An incoming record dated 2024-04-10 (partition ABR). -/
def recAbr : Record :=
  { data := DateInput.valid ⟨2024, 4, 10⟩
    beneficiario := "Y"
    valor_transacionado := 250
    valor_liberado := 0
    taxa_de_juros := 0
    comissao_agente := 0
    extra_agente := 0
    valor_dualcred := 0
    nota_fiscal := 0
    ptrans := 0
    pliberad := 0 }

/-- An incoming record whose date cell is unparsable. -/
def recBadDate : Record :=
  { data := DateInput.invalid
    beneficiario := "Z"
    valor_transacionado := 10
    valor_liberado := 0
    taxa_de_juros := 0
    comissao_agente := 0
    extra_agente := 0
    valor_dualcred := 0
    nota_fiscal := 0
    ptrans := 0
    pliberad := 0 }

/-- C5 counterexample sheet: stored derived value 999 with T=100. -/
def dfC5 : DF :=
  ⟨[("data", [CellVal.str "2024-01-05"]),
    ("valor_transacionado", [CellVal.num 100]),
    ("valor_dualcred", [CellVal.num 999])], 1⟩

/-- C6 counterexample sheet: no `agente` column. -/
def dfC6 : DF := ⟨[("data", [CellVal.str "2024-01-05"])], 1⟩

/-- Whether a cell holds a string. -/
def isStrVal : CellVal → Bool
  | .str _ => true
  | _ => false

/-! # Theorems -/

theorem roundTo2_zero : roundTo2 0 = 0 := by
  norm_num [roundTo2, halfEven]

/-! ## Lemmas about `charLower` -/

theorem charLower_targets_fix : ∀ p ∈ lowerPairs, charLower p.2 = p.2 := by decide

theorem charLower_targets_notSpace : ∀ p ∈ lowerPairs, isPySpace p.2 = false := by
  decide

theorem charLower_idem (c : Char) : charLower (charLower c) = charLower c := by
  rcases hf : lowerPairs.find? (fun p => p.1 == c) with _ | p
  · simp [charLower, hf]
  · have hp : p ∈ lowerPairs := List.mem_of_find?_eq_some hf
    have h1 : charLower c = p.2 := by simp [charLower, hf]
    rw [h1]
    exact charLower_targets_fix p hp

theorem charLower_space {c : Char} (h : isPySpace (charLower c) = true) :
    charLower c = c := by
  rcases hf : lowerPairs.find? (fun p => p.1 == c) with _ | p
  · simp [charLower, hf]
  · exfalso
    have hp : p ∈ lowerPairs := List.mem_of_find?_eq_some hf
    have h1 : charLower c = p.2 := by simp [charLower, hf]
    rw [h1, charLower_targets_notSpace p hp] at h
    exact Bool.false_ne_true h

/-! ## Membership through the sanitizer stages -/

theorem mem_replaceChar {a b c : Char} {s : List Char}
    (h : c ∈ replaceChar a b s) : c = b ∨ (c ∈ s ∧ c ≠ a) := by
  obtain ⟨d, hd, he⟩ := List.mem_map.mp h
  by_cases hda : d = a
  · left
    rw [hda, if_pos rfl] at he
    exact he.symm
  · right
    rw [if_neg hda] at he
    subst he
    exact ⟨hd, hda⟩

theorem mem_expandPct {c : Char} {s : List Char} (h : c ∈ expandPct s) :
    c ∈ porcentoChars ∨ (c ∈ s ∧ c ≠ '%') := by
  induction s with
  | nil => simp [expandPct] at h
  | cons d cs ih =>
    rw [expandPct] at h
    rcases List.mem_append.mp h with h1 | h2
    · by_cases hd : d = '%'
      · rw [if_pos hd] at h1
        exact Or.inl h1
      · rw [if_neg hd] at h1
        simp only [List.mem_singleton] at h1
        subst h1
        exact Or.inr ⟨List.mem_cons_self _ _, hd⟩
    · rcases ih h2 with h3 | ⟨h3, h4⟩
      · exact Or.inl h3
      · exact Or.inr ⟨List.mem_cons_of_mem _ h3, h4⟩

theorem mem_removeChar {a c : Char} {s : List Char} (h : c ∈ removeChar a s) :
    c ∈ s ∧ c ≠ a := by
  have h1 := List.mem_filter.mp h
  refine ⟨h1.1, ?_⟩
  simpa using h1.2

theorem mem_pyStrip {c : Char} {s : List Char} (h : c ∈ pyStrip s) : c ∈ s := by
  unfold pyStrip at h
  rw [List.mem_reverse] at h
  have h1 := (List.dropWhile_sublist _).mem h
  rw [List.mem_reverse] at h1
  exact (List.dropWhile_sublist _).mem h1

theorem porcento_good :
    ∀ c ∈ porcentoChars, charLower c = c ∧ c ∉ specialChars ∧ isPySpace c = false := by
  decide

/-- Characterization of the characters a sanitized name can contain:
every output character is fixed by lowering, is none of the substituted
special characters, and can only be whitespace if that whitespace
character already occurred in the input. -/
theorem sanitize_chars {s : List Char} {c : Char} (hc : c ∈ sanitizeList s) :
    charLower c = c ∧ c ∉ specialChars ∧ (isPySpace c = true → c ∈ s) := by
  unfold sanitizeList at hc
  obtain ⟨hc, hne13⟩ := mem_removeChar hc
  obtain ⟨hc, hne12⟩ := mem_removeChar hc
  rcases mem_expandPct hc with hp | ⟨hc, hne11⟩
  · obtain ⟨h1, h2, h3⟩ := porcento_good c hp
    exact ⟨h1, h2, fun h => by simp [h3] at h⟩
  rcases mem_replaceChar hc with rfl | ⟨hc, hne10⟩
  · exact ⟨by decide, by decide, fun h => absurd h (by decide)⟩
  rcases mem_replaceChar hc with rfl | ⟨hc, hne9⟩
  · exact ⟨by decide, by decide, fun h => absurd h (by decide)⟩
  rcases mem_replaceChar hc with rfl | ⟨hc, hne8⟩
  · exact ⟨by decide, by decide, fun h => absurd h (by decide)⟩
  rcases mem_replaceChar hc with rfl | ⟨hc, hne7⟩
  · exact ⟨by decide, by decide, fun h => absurd h (by decide)⟩
  rcases mem_replaceChar hc with rfl | ⟨hc, hne6⟩
  · exact ⟨by decide, by decide, fun h => absurd h (by decide)⟩
  rcases mem_replaceChar hc with rfl | ⟨hc, hne5⟩
  · exact ⟨by decide, by decide, fun h => absurd h (by decide)⟩
  rcases mem_replaceChar hc with rfl | ⟨hc, hne4⟩
  · exact ⟨by decide, by decide, fun h => absurd h (by decide)⟩
  rcases mem_replaceChar hc with rfl | ⟨hc, hne3⟩
  · exact ⟨by decide, by decide, fun h => absurd h (by decide)⟩
  rcases mem_replaceChar hc with rfl | ⟨hc, hne2⟩
  · exact ⟨by decide, by decide, fun h => absurd h (by decide)⟩
  rcases mem_replaceChar hc with rfl | ⟨hc, hne1⟩
  · exact ⟨by decide, by decide, fun h => absurd h (by decide)⟩
  obtain ⟨d, hd, rfl⟩ := List.mem_map.mp hc
  refine ⟨charLower_idem d, ?_, ?_⟩
  · intro hmem
    simp only [specialChars, List.mem_cons, List.not_mem_nil, or_false] at hmem
    rcases hmem with h|h|h|h|h|h|h|h|h|h|h|h|h
    exacts [hne1 h, hne2 h, hne3 h, hne4 h, hne5 h, hne6 h, hne7 h, hne8 h,
      hne9 h, hne10 h, hne11 h, hne12 h, hne13 h]
  · intro hsp
    have hfix : charLower d = d := charLower_space hsp
    rw [hfix]
    exact mem_pyStrip hd

/-! ## Identity of the sanitizer on canonical lists -/

theorem dropWhile_eq_self_of_none {p : Char → Bool} {t : List Char}
    (h : ∀ c ∈ t, p c = false) : t.dropWhile p = t := by
  cases t with
  | nil => rfl
  | cons a l => simp [List.dropWhile_cons, h a (List.mem_cons_self _ _)]

theorem pyStrip_eq_self {t : List Char} (h : ∀ c ∈ t, isPySpace c = false) :
    pyStrip t = t := by
  unfold pyStrip
  rw [dropWhile_eq_self_of_none h]
  rw [dropWhile_eq_self_of_none (fun c hc => h c (List.mem_reverse.mp hc))]
  exact List.reverse_reverse t

theorem pyLower_eq_self {t : List Char} (h : ∀ c ∈ t, charLower c = c) :
    pyLower t = t :=
  (List.map_congr_left h).trans (List.map_id t)

theorem replaceChar_eq_self {a b : Char} {t : List Char} (h : ∀ c ∈ t, c ≠ a) :
    replaceChar a b t = t :=
  (List.map_congr_left fun c hc => if_neg (h c hc)).trans (List.map_id t)

theorem expandPct_eq_self {t : List Char} (h : ∀ c ∈ t, c ≠ '%') :
    expandPct t = t := by
  induction t with
  | nil => rfl
  | cons d cs ih =>
    rw [expandPct, if_neg (h d (List.mem_cons_self _ _)),
      ih fun c hc => h c (List.mem_cons_of_mem _ hc)]
    rfl

theorem removeChar_eq_self {a : Char} {t : List Char} (h : ∀ c ∈ t, c ≠ a) :
    removeChar a t = t :=
  List.filter_eq_self.mpr fun c hc => by simpa using h c hc

theorem sanitizeList_eq_self {t : List Char}
    (h : ∀ c ∈ t, charLower c = c ∧ c ∉ specialChars ∧ isPySpace c = false) :
    sanitizeList t = t := by
  have hne : ∀ a ∈ specialChars, ∀ c ∈ t, c ≠ a :=
    fun a ha c hc he => (h c hc).2.1 (he ▸ ha)
  unfold sanitizeList
  rw [pyStrip_eq_self fun c hc => (h c hc).2.2]
  rw [pyLower_eq_self fun c hc => (h c hc).1]
  rw [replaceChar_eq_self (hne ' ' (by decide))]
  rw [replaceChar_eq_self (hne 'ç' (by decide))]
  rw [replaceChar_eq_self (hne 'ã' (by decide))]
  rw [replaceChar_eq_self (hne 'õ' (by decide))]
  rw [replaceChar_eq_self (hne 'ó' (by decide))]
  rw [replaceChar_eq_self (hne 'ô' (by decide))]
  rw [replaceChar_eq_self (hne 'à' (by decide))]
  rw [replaceChar_eq_self (hne 'é' (by decide))]
  rw [replaceChar_eq_self (hne 'ê' (by decide))]
  rw [replaceChar_eq_self (hne 'ú' (by decide))]
  rw [expandPct_eq_self (hne '%' (by decide))]
  rw [removeChar_eq_self (hne '(' (by decide))]
  rw [removeChar_eq_self (hne ')' (by decide))]

/-! ## Claim theorems (derivation) -/

/-- C1: for every record, `processar_novos_dados` sets
`valor_dualcred = round(T−R−I−C−E, 2)`; `%trans` is `0` when `T ≤ 0` and
`round(dualcred/T·100, 2)` otherwise; `%liberad` is `0` when `R ≤ 0` and
`round(dualcred/R·100, 2)` otherwise; `nota_fiscal = round(T·0.032, 2)`.
In particular Scenario A (T=1000, R=800, I=20, C=30, E=10) yields
dualcred = 140, %trans = 14, %liberad = 17.5, nota_fiscal = 32. -/
theorem C1_derivation :
    (∀ r : Record,
      (deriveRecord r).valor_dualcred =
        roundTo2 (r.valor_transacionado - r.valor_liberado - r.taxa_de_juros
          - r.comissao_agente - r.extra_agente) ∧
      (deriveRecord r).ptrans =
        (if r.valor_transacionado ≤ 0 then 0
          else roundTo2
            ((deriveRecord r).valor_dualcred / r.valor_transacionado * 100)) ∧
      (deriveRecord r).pliberad =
        (if r.valor_liberado ≤ 0 then 0
          else roundTo2
            ((deriveRecord r).valor_dualcred / r.valor_liberado * 100)) ∧
      (deriveRecord r).nota_fiscal =
        roundTo2 (r.valor_transacionado * (32/1000))) ∧
    ((deriveRecord recA).valor_dualcred = 140 ∧
      (deriveRecord recA).ptrans = 14 ∧
      (deriveRecord recA).pliberad = 35/2 ∧
      (deriveRecord recA).nota_fiscal = 32) := by
  constructor
  · intro r
    refine ⟨rfl, ?_, ?_, rfl⟩
    · rcases le_or_lt r.valor_transacionado 0 with h | h
      · rw [if_pos h]
        simp only [deriveRecord]
        rw [if_neg (not_lt.mpr h), roundTo2_zero]
      · rw [if_neg (not_le.mpr h)]
        simp only [deriveRecord]
        rw [if_pos h]
    · rcases le_or_lt r.valor_liberado 0 with h | h
      · rw [if_pos h]
        simp only [deriveRecord]
        rw [if_neg (not_lt.mpr h), roundTo2_zero]
      · rw [if_neg (not_le.mpr h)]
        simp only [deriveRecord]
        rw [if_pos h]
  · refine ⟨?_, ?_, ?_, ?_⟩ <;> norm_num [deriveRecord, recA, roundTo2, halfEven]

/-- Witness for C1 at the Scenario A record. -/
theorem C1_derivation_witness :
    (deriveRecord recA).valor_dualcred =
      roundTo2 (recA.valor_transacionado - recA.valor_liberado
        - recA.taxa_de_juros - recA.comissao_agente - recA.extra_agente) :=
  (C1_derivation.1 recA).1

/-- C3: for every record, each percentage whose own denominator is not
positive is forced to 0, independently of the other denominator (the
embedding is a total function on `ℚ`, so no error or infinity can
arise); Scenario B (all raw fields 0) yields all four derived
fields 0. -/
theorem C3_division_guard (r : Record) :
    (r.valor_transacionado ≤ 0 → (deriveRecord r).ptrans = 0) ∧
    (r.valor_liberado ≤ 0 → (deriveRecord r).pliberad = 0) ∧
    ((deriveRecord recB).valor_dualcred = 0 ∧
      (deriveRecord recB).ptrans = 0 ∧
      (deriveRecord recB).pliberad = 0 ∧
      (deriveRecord recB).nota_fiscal = 0) := by
  refine ⟨fun ht => ?_, fun hl => ?_, ?_, ?_, ?_, ?_⟩
  · simp only [deriveRecord]
    rw [if_neg (not_lt.mpr ht), roundTo2_zero]
  · simp only [deriveRecord]
    rw [if_neg (not_lt.mpr hl), roundTo2_zero]
  all_goals norm_num [deriveRecord, recB, roundTo2, halfEven]

/-- Witness for C3: a record with T = 0 but R = 100 > 0 has its
transacted percentage forced to 0 by its own denominator alone, and at
Scenario B the released percentage is forced to 0 as well. -/
theorem C3_division_guard_witness :
    (deriveRecord recMixed).ptrans = 0 ∧ (deriveRecord recB).pliberad = 0 :=
  ⟨(C3_division_guard recMixed).1 (by decide),
    (C3_division_guard recB).2.1 (by decide)⟩

/-! ## Claim theorems (sanitizer) -/

/-- C7 counterexample: `sanitize_column_name` is not idempotent.  On the
header `"(\ta"` the first pass strips nothing (the edges are `'('` and
`'a'`), then removes the parenthesis, exposing a leading tab; a second
pass strips that tab, so the two results differ. -/
theorem C7_cex :
    sanitize_column_name (sanitize_column_name "(\ta")
      ≠ sanitize_column_name "(\ta" := by decide

/-- C7 amended: `sanitize_column_name` is idempotent on every string
whose only whitespace characters are plain spaces (in particular on
every already-canonical header).  The counterexample requires a
non-space whitespace character guarded by a parenthesis. -/
theorem C7_sanitize_idempotent (s : String)
    (h : ∀ c ∈ s.data, isPySpace c = true → c = ' ') :
    sanitize_column_name (sanitize_column_name s) = sanitize_column_name s := by
  apply congrArg String.mk
  apply sanitizeList_eq_self
  intro c hc
  obtain ⟨h1, h2, h3⟩ := sanitize_chars hc
  refine ⟨h1, h2, ?_⟩
  cases hb : isPySpace c
  · rfl
  · exfalso
    have hcs : c = ' ' := h c (h3 hb) hb
    subst hcs
    exact h2 (by decide)

/-- Witness for C7: sanitizing a realistic header twice equals
sanitizing it once. -/
theorem C7_sanitize_idempotent_witness :
    sanitize_column_name (sanitize_column_name "Comissão (Agente) %")
      = sanitize_column_name "Comissão (Agente) %" :=
  C7_sanitize_idempotent "Comissão (Agente) %" (by decide)

/-- C10 counterexample: `sanitize_column_name` does not transliterate
`'í'` or `'á'`, so `"beneficiário"` and `"máquina"` are fixed points of
sanitization; both are keys of the rename map, hence those two synonym
merges can apply (refuting both the `'í'`/`'á'`-absence part and the
never-equal-a-key part of the claim). -/
theorem C10_cex :
    sanitize_column_name "beneficiário" = "beneficiário" ∧
    'á' ∈ (sanitize_column_name "beneficiário").data ∧
    'í' ∈ (sanitize_column_name "índice").data ∧
    'á' ∈ (sanitize_column_name "máquina").data ∧
    ("beneficiário", "beneficiario") ∈ column_mapping ∧
    ("máquina", "maquina") ∈ column_mapping := by decide

/-- C10 amended: a sanitized name never contains `'%'`, `'ã'`, `'ç'` or
`'ô'`, so the rename-map keys `"comissão_agente"`, `"%_trans"` and
`"%_liberad"` are unreachable and those three synonym merges never apply
to any input table; the keys `"beneficiário"` and `"máquina"` remain
reachable because `'í'` and `'á'` are not transliterated. -/
theorem C10_unreachable_keys (s : String) :
    '%' ∉ (sanitize_column_name s).data ∧
    'ã' ∉ (sanitize_column_name s).data ∧
    'ç' ∉ (sanitize_column_name s).data ∧
    'ô' ∉ (sanitize_column_name s).data ∧
    sanitize_column_name s ≠ "comissão_agente" ∧
    sanitize_column_name s ≠ "%_trans" ∧
    sanitize_column_name s ≠ "%_liberad" := by
  have habs : ∀ c ∈ specialChars, c ∉ (sanitize_column_name s).data :=
    fun c hcs hc => (sanitize_chars hc).2.1 hcs
  refine ⟨habs '%' (by decide), habs 'ã' (by decide), habs 'ç' (by decide),
    habs 'ô' (by decide), ?_, ?_, ?_⟩
  · intro he
    exact habs 'ã' (by decide) (by rw [he]; decide)
  · intro he
    exact habs '%' (by decide) (by rw [he]; decide)
  · intro he
    exact habs '%' (by decide) (by rw [he]; decide)

/-! ## Lemmas about `find?` and the required-column fold -/

theorem find?_append_none {α : Type} {p : α → Bool} {l₁ : List α} (l₂ : List α)
    (h : l₁.find? p = none) : (l₁ ++ l₂).find? p = l₂.find? p := by
  induction l₁ with
  | nil => rfl
  | cons a l ih =>
    rw [List.find?_eq_none] at h
    have hpa : p a = false := by
      have h1 := h a (List.mem_cons_self _ _)
      simpa using h1
    rw [List.cons_append, List.find?_cons_of_neg _ (by simp [hpa])]
    exact ih (List.find?_eq_none.mpr fun x hx => h x (List.mem_cons_of_mem _ hx))

theorem find?_append_left {α : Type} {p : α → Bool} {l₁ : List α} {a : α}
    (l₂ : List α) (h : l₁.find? p = some a) : (l₁ ++ l₂).find? p = some a := by
  induction l₁ with
  | nil => simp at h
  | cons b l ih =>
    cases hpb : p b
    · rw [List.find?_cons_of_neg _ (by simp [hpb])] at h
      rw [List.cons_append, List.find?_cons_of_neg _ (by simp [hpb])]
      exact ih h
    · rw [List.find?_cons_of_pos _ hpb] at h
      rw [List.cons_append, List.find?_cons_of_pos _ hpb]
      exact h

theorem hasCol_false_find? {d : DF} {c : String} (h : hasCol d c = false) :
    d.cols.find? (fun p => decide (p.1 = c)) = none := by
  rw [List.find?_eq_none]
  intro x hx hpx
  unfold hasCol at h
  rw [List.any_eq_false] at h
  exact h x hx hpx

theorem hasCol_true_find? {d : DF} {c : String} (h : hasCol d c = true) :
    ∃ x, d.cols.find? (fun p => decide (p.1 = c)) = some x := by
  unfold hasCol at h
  rw [List.any_eq_true] at h
  exact Option.isSome_iff_exists.mp (List.find?_isSome.mpr h)

theorem addStep_nrows (d : DF) (c : String) : (addStep d c).nrows = d.nrows := by
  unfold addStep
  split <;> rfl

theorem hasCol_addStep {d : DF} {c c' : String} (h : hasCol d c = true) :
    hasCol (addStep d c') c = true := by
  unfold addStep
  split
  · exact h
  · unfold hasCol at h ⊢
    simp only [List.any_append, h, Bool.true_or]

theorem getCol_addStep {d : DF} {c c' : String} (h : hasCol d c = true) :
    getCol (addStep d c') c = getCol d c := by
  unfold addStep
  split
  · rfl
  · obtain ⟨x, hx⟩ := hasCol_true_find? h
    unfold getCol
    rw [hx, find?_append_left _ hx]

theorem getCol_foldl_present {c : String} :
    ∀ (cs : List String) (d : DF), hasCol d c = true →
      getCol (cs.foldl addStep d) c = getCol d c := by
  intro cs
  induction cs with
  | nil => intro d _; rfl
  | cons c' cs ih =>
    intro d hd
    rw [List.foldl_cons, ih _ (hasCol_addStep hd), getCol_addStep hd]

theorem getCol_foldl_missing {c : String} :
    ∀ (cs : List String) (d : DF), hasCol d c = false → c ∈ cs → cs.Nodup →
      getCol (cs.foldl addStep d) c =
        some (List.replicate d.nrows (defaultFor c)) := by
  intro cs
  induction cs with
  | nil => intro d _ hmem _; exact absurd hmem (List.not_mem_nil c)
  | cons c' cs ih =>
    intro d h0 hmem hnd
    rw [List.foldl_cons]
    by_cases hcc : c' = c
    · subst hcc
      have hadd : addStep d c' =
          ⟨d.cols ++ [(c', List.replicate d.nrows (defaultFor c'))], d.nrows⟩ := by
        unfold addStep
        rw [if_neg (by simp [h0])]
      rw [hadd]
      have hpres : hasCol
          ⟨d.cols ++ [(c', List.replicate d.nrows (defaultFor c'))], d.nrows⟩
          c' = true := by
        unfold hasCol
        simp [List.any_append]
      rw [getCol_foldl_present cs _ hpres]
      unfold getCol
      rw [find?_append_none _ (hasCol_false_find? h0)]
      simp [List.find?]
    · have hmem' : c ∈ cs := by
        rcases List.mem_cons.mp hmem with h | h
        · exact absurd h.symm hcc
        · exact h
      have h0' : hasCol (addStep d c') c = false := by
        unfold addStep
        split
        · exact h0
        · unfold hasCol at h0 ⊢
          simp [List.any_append, h0, hcc]
      have hres := ih (addStep d c') h0' hmem' (List.Nodup.of_cons hnd)
      rw [addStep_nrows] at hres
      exact hres

theorem foldl_addStep_cols :
    ∀ (cs : List String) (d : DF), ∃ e, (cs.foldl addStep d).cols = d.cols ++ e := by
  intro cs
  induction cs with
  | nil => intro d; exact ⟨[], by simp⟩
  | cons c cs ih =>
    intro d
    rw [List.foldl_cons]
    obtain ⟨e, he⟩ := ih (addStep d c)
    by_cases hc : hasCol d c = true
    · refine ⟨e, ?_⟩
      rw [he]
      unfold addStep
      rw [if_pos hc]
    · refine ⟨(c, List.replicate d.nrows (defaultFor c)) :: e, ?_⟩
      rw [he]
      unfold addStep
      rw [if_neg hc]
      simp

/-! ## The writer loop fails on its first iteration -/

/-- The first dict item is `(1, "JAN")`; the loop binds
`month_num = "JAN"` and `month_names["JAN"]` raises `KeyError`. -/
theorem writerStep_first (existing : String → List Record)
    (novos : List Record) (sheets : String → List Record) :
    writerStep existing novos sheets (PyVal.int 1, PyVal.str "JAN") =
      Except.error () := rfl

theorem foldlM_writer_error (existing : String → List Record)
    (novos : List Record) :
    month_names.foldlM (writerStep existing novos) existing =
      Except.error () := rfl

/-- Every call of `salvar_no_excel` returns `False` with the stored
sheets unchanged: an empty derived batch returns early, an unparsable
date raises at `pd.to_datetime`, and otherwise the writer loop raises
`KeyError` on its first iteration; all exceptions are caught by the
outer `except`, which returns `False`. -/
theorem salvar_const (existing : String → List Record)
    (novosDados : List Record) :
    salvarNoExcel existing novosDados = (false, existing) := by
  dsimp only [salvarNoExcel]
  split
  · rfl
  · split
    · rfl
    · rw [foldlM_writer_error]

/-! ## Claim theorems (loader) -/

/-- C9: when the workbook file is absent (`FileNotFoundError`),
`load_and_process_data` treats the store as empty and returns the empty
mapping of partitions instead of raising. -/
theorem C9_missing_store : loadAndProcessData none = [] := rfl

/-- C5 counterexample: a sheet stores `valor_dualcred = 999` with
`valor_transacionado = 100` (all other raw fields absent, i.e. 0); the
loader returns the stored 999 unchanged, while the derivation formula
gives `round(100−0−0−0−0, 2) = 100 ≠ 999`, and the result is a
per-sheet mapping whose only entry is the (non-concatenated, non-derived)
sheet itself — refuting the claim that the read path re-derives every
record. -/
theorem C5_cex :
    getCol (loadSheet dfC5) "valor_dualcred" = some [CellVal.num 999] ∧
    loadAndProcessData (some [("JAN", dfC5)]) = [("JAN", loadSheet dfC5)] ∧
    roundTo2 (100 - 0 - 0 - 0 - 0) = 100 ∧ (999 : ℚ) ≠ 100 := by
  refine ⟨by decide, rfl, by norm_num [roundTo2, halfEven], by norm_num⟩

/-- C5 amended: `load_and_process_data` returns one entry per stored
sheet (no concatenation), and each loaded sheet consists of the original
columns with sanitized-then-renamed headers and untouched cell values,
followed only by appended default columns; in particular no derived
field is recomputed on the read path. -/
theorem C5_load_no_derivation :
    (∀ sheets : List (String × DF),
      loadAndProcessData (some sheets) = sheets.map fun p => (p.1, loadSheet p.2)) ∧
    (∀ d : DF, ∃ e, (loadSheet d).cols =
      d.cols.map (fun p => (renameCol (sanitize_column_name p.1), p.2)) ++ e) := by
  refine ⟨fun _ => rfl, fun d => ?_⟩
  obtain ⟨e, he⟩ := foldl_addStep_cols required_columns (renameCols (sanitizeCols d))
  refine ⟨e, ?_⟩
  unfold loadSheet addMissing
  rw [he]
  simp only [renameCols, sanitizeCols, List.map_map]
  rfl

/-- Witness for C5 at a concrete one-sheet store. -/
theorem C5_load_no_derivation_witness :
    loadAndProcessData (some [("FEV", dfC5)]) = [("FEV", loadSheet dfC5)] :=
  C5_load_no_derivation.1 [("FEV", dfC5)]

/-- C6 counterexample: loading a sheet with no `agente` column injects
the numeric zero `0.0` into `agente` — not a fallback agent string
(the injected cell is not a string value at all). -/
theorem C6_cex :
    getCol (loadSheet dfC6) "agente" = some [CellVal.num 0] ∧
    isStrVal (CellVal.num 0) = false :=
  ⟨by decide, rfl⟩

/-- C6 amended: every required column absent after normalization is
injected with `pd.NaT` for the `data` column and the numeric `0.0` for
every other column — including `agente`, which receives `0.0` rather
than a fallback agent string. -/
theorem C6_default_injection (d : DF) (c : String)
    (hreq : c ∈ required_columns)
    (habs : hasCol (renameCols (sanitizeCols d)) c = false) :
    getCol (loadSheet d) c = some (List.replicate d.nrows (defaultFor c)) ∧
    defaultFor "data" = CellVal.NaT ∧ defaultFor "agente" = CellVal.num 0 := by
  refine ⟨?_, by decide, by decide⟩
  exact getCol_foldl_missing required_columns (renameCols (sanitizeCols d))
    habs hreq (by decide)

/-- Witness for C6: the sheet `dfC6` lacks `agente`, and loading injects
one row of the default (the numeric zero). -/
theorem C6_default_injection_witness :
    getCol (loadSheet dfC6) "agente" =
      some (List.replicate dfC6.nrows (defaultFor "agente")) :=
  (C6_default_injection dfC6 "agente" (by decide) (by decide)).1

/-! ## Claim theorems (writer) -/

/-- C2 (code bug): reconciliation never happens.  Merging the single
record (2024-03-05, "Beneficiary X", T=500) into the empty store leaves
the MAR sheet empty and returns `False`: the swapped
unpacking `for sheet_name, month_num in month_names.items()` makes
`month_names[month_num]` a string-keyed lookup into an int-keyed dict,
a `KeyError` swallowed by the outer `except` — so zero records with the
incoming key survive, where the claim requires exactly one. -/
theorem C2_merge_never_happens :
    (salvarNoExcel emptyStore [recMar]).1 = false ∧
    (salvarNoExcel emptyStore [recMar]).2 "MAR" = [] ∧
    (processarNovosDados [recMar]).isEmpty = false ∧
    monthLabelOf recMar = some (PyVal.str "MAR") := by
  have h := salvar_const emptyStore [recMar]
  exact ⟨by rw [h], by rw [h]; rfl, rfl, rfl⟩

/-- C4 (code bug): an incoming record dated 2024-04-10 — whose own date
maps to the label ABR — is never written into the ABR sheet (or any
sheet): the writer loop raises `KeyError` before any write and
`salvar_no_excel` returns `False`. -/
theorem C4_record_never_stored :
    (salvarNoExcel emptyStore [recAbr]).1 = false ∧
    (salvarNoExcel emptyStore [recAbr]).2 "ABR" = [] ∧
    monthLabelOf recAbr = some (PyVal.str "ABR") := by
  have h := salvar_const emptyStore [recAbr]
  exact ⟨by rw [h], by rw [h]; rfl, rfl⟩

/-- C8 counterexample: an incoming record with an unparsable date is
not coerced to 2025-01-01: `pd.to_datetime` raises, the exception is
caught, `salvar_no_excel` returns `False`, and nothing is stored (the
JAN sheet — where a 2025-01-01 record would land — stays empty). -/
theorem C8_cex :
    (salvarNoExcel emptyStore [recBadDate]).1 = false ∧
    (salvarNoExcel emptyStore [recBadDate]).2 "JAN" = [] ∧
    toDatetime recBadDate.data = Except.error () := by
  have h := salvar_const emptyStore [recBadDate]
  exact ⟨by rw [h], by rw [h]; rfl, rfl⟩

/-- C8 amended: for every incoming batch containing a record with an
unparsable date, the date is not coerced to any default:
`pd.to_datetime` raises, the exception is caught inside
`salvar_no_excel` (never propagated to the caller), and the call
returns `False` with the stored sheets unchanged. -/
theorem C8_invalid_date_aborts (existing : String → List Record)
    (novosDados : List Record) (r : Record) (_hr : r ∈ novosDados)
    (hinv : r.data = DateInput.invalid) :
    toDatetime r.data = Except.error () ∧
    salvarNoExcel existing novosDados = (false, existing) :=
  ⟨by rw [hinv]; rfl, salvar_const existing novosDados⟩

/-- Witness for C8 at the concrete bad-date record. -/
theorem C8_invalid_date_aborts_witness :
    toDatetime recBadDate.data = Except.error () ∧
    salvarNoExcel emptyStore [recBadDate] = (false, emptyStore) :=
  C8_invalid_date_aborts emptyStore [recBadDate] recBadDate
    (List.mem_cons_self _ _) rfl

/-- Witness for C10 at a concrete raw header. -/
theorem C10_unreachable_keys_witness :
    sanitize_column_name "Comissão Agente" ≠ "comissão_agente" :=
  (C10_unreachable_keys "Comissão Agente").2.2.2.2.1

end DataProcessing
